import Mathlib

/-!
Verification of the `inline_expansion` repository: a shallow embedding of
`src/main.c` (functions `main`, `foo`, `bar`) and of
`src/c_project/H5_Report/Core/Src/print_config.c` (function `send_char`).

A C string is modelled as the list of bytes that precede the terminating
sentinel (`List Char`); reading at an offset at or past the end of that list
yields the sentinel `nullChar`.  A pointer is modelled as a base address
(`Nat`) plus an offset; the null pointer is address `0`.  Program output is
modelled as the list of printed lines (every `printf` format string in the
program ends with `\n`; the newline is accounted for in `printf`'s return
value, which counts every byte written).
-/

/-- The C string terminator `'\0'`. -/
def nullChar : Char := Char.ofNat 0

/-- A list of bytes is a genuine C string body when none of its listed bytes
is the terminator itself, so the terminator sits exactly at offset
`s.length`. -/
def noNull (s : List Char) : Prop := ∀ c ∈ s, c ≠ nullChar

instance (s : List Char) : Decidable (noNull s) := by
  unfold noNull
  infer_instance

/-- The byte obtained by dereferencing a cursor sitting `i` bytes past the
start of a string whose pre-terminator bytes are `s`: a listed byte below
`s.length`, the terminating sentinel at `s.length` (and, hypothetically,
beyond). -/
def charAt (s : List Char) (i : Nat) : Char := s.getD i nullChar

/-- The `strlen` of `string.h`, used at src/main.c line 12: counts the bytes
before the first terminator. -/
def strlen : List Char → Nat
  | [] => 0
  | c :: rest => if c = nullChar then 0 else strlen rest + 1

/-- The loop `for(int i = 0; (*c++) && i < len; ++i){ count++; }` of `bar`
(src/main.c lines 30-32).  The state is the suffix of the string that starts
at the cursor, the remaining budget `k = len - i`, and the cursor's offset
`p` from `str`.  Every evaluation of the loop condition dereferences the
cursor (the head of the suffix, or the terminating sentinel once the suffix
is exhausted) and then advances it (`c++`), even the evaluation that stops
the loop; the bound test `i < len` runs only when the byte read is not the
terminator, matching the short-circuit of `&&`.  Returns the triple
`(count, final cursor offset, list of dereferenced offsets)`. -/
def barLoop : List Char → Int → Nat → Nat × Nat × List Nat
  | [], _, p => (0, p + 1, [p])
  | c :: rest, k, p =>
    if c ≠ nullChar ∧ 0 < k then
      let r := barLoop rest (k - 1) (p + 1)
      (r.1 + 1, r.2.1, p :: r.2.2)
    else (0, p + 1, [p])

/-- Observable result of a call to `bar` (src/main.c lines 27-34): its local
`count`, the final offset of its cursor `c` from `str`, the offsets it
dereferenced, and the lines it printed. -/
structure BarResult where
  count : Nat
  cursor : Nat
  reads : List Nat
  output : List String
deriving DecidableEq

/-- The string selected by `(c ? "No" : "Yes")` at src/main.c line 33; the
pointer value of `c` there is `base + cursor` where `base` is the address of
`str`. -/
def barMessage (base : Nat) (cursor : Nat) : String :=
  if base + cursor ≠ 0 then "No" else "Yes"

/-- `bar` from src/main.c lines 27-34. -/
def bar (base : Nat) (s : List Char) (len : Int) : BarResult :=
  let r := barLoop s len 0
  { count := r.1
    cursor := r.2.1
    reads := r.2.2
    output := ["Matching count ? " ++ barMessage base r.2.1] }

/-- The string produced by `printf("%s has %d chars\n", str, len)`
(src/main.c line 24), newline included; that `printf` returns the number of
bytes of this string. -/
def fooPrinted (s : List Char) (len : Int) : String :=
  String.mk s ++ " has " ++ toString len ++ " chars\n"

/-- The same formatted line as it appears in the output trace (one printed
line, without the trailing newline). -/
def fooLine (s : List Char) (len : Int) : String :=
  String.mk s ++ " has " ++ toString len ++ " chars"

/-- Observable result of a call to `foo` (src/main.c lines 17-25): the lines
it printed, its return value, and whether it invoked `bar`. -/
structure FooResult where
  output : List String
  ret : Int
  barCalled : Bool
deriving DecidableEq

/-- `foo` from src/main.c lines 17-25. -/
def foo (x : Int) (base : Nat) (s : List Char) (len : Int) : FooResult :=
  if x < 10 then
    { output := ["X less than 10"], ret := -1, barCalled := false }
  else
    { output := (bar base s len).output ++ [fooLine s len]
      ret := ((fooPrinted s len).length : Nat)
      barCalled := true }

/-- `main` from src/main.c lines 8-15: the full list of lines the program
prints.  `base` is the load address of the string literal `"Hello"`. -/
def mainRun (base : Nat) : List String :=
  let x : Int := 10
  let s : List Char := "Hello".toList
  let len : Int := (strlen s : Nat)
  let r := foo x base s len
  r.output ++ ["Foo return : " ++ toString r.ret]

/-! ### The UART character transmitter (print_config.c) -/

/-- The HAL handle type; only the identity of the handle matters to
`send_char`. -/
structure UART_HandleTypeDef where
  id : Nat
deriving DecidableEq

/-- The status values a HAL transmit call can report. -/
inductive HAL_StatusTypeDef where
  | HAL_OK
  | HAL_ERROR
  | HAL_BUSY
  | HAL_TIMEOUT
deriving DecidableEq

/-- Modelled from the spec: the HAL's maximum-delay sentinel, the "wait
indefinitely" timeout of the observed configuration; the HAL header defining
it is not part of this repository. -/
def HAL_MAX_DELAY : Nat := 0xFFFFFFFF

/-- The `extern UART_HandleTypeDef huart2` handle (print_config.c line 3),
owned outside this unit. -/
def huart2 : UART_HandleTypeDef := ⟨2⟩

/-- Record of one call into `HAL_UART_Transmit`: the handle, the bytes the
data pointer points at, the byte count, and the timeout. -/
structure HalTransmitCall where
  handle : UART_HandleTypeDef
  data : List Char
  size : Nat
  timeout : Nat
deriving DecidableEq

/-- Modelled from the spec: `HAL_UART_Transmit` is the external HAL transmit
call, which writes the bytes to the serial peripheral and reports a status.
`st` is the status that the hardware would report on this run; the model
records the call that was made. -/
def HAL_UART_Transmit (st : HAL_StatusTypeDef) (h : UART_HandleTypeDef)
    (pData : List Char) (size : Nat) (timeout : Nat) :
    HAL_StatusTypeDef × List HalTransmitCall :=
  (st, [⟨h, pData, size, timeout⟩])

/-- `send_char` from print_config.c lines 5-8: transmits the one byte of `c`
(`sizeof(c) = 1`) on `huart2` with the maximum delay, discarding the
reported status.  Returns the unit result together with the trace of HAL
calls made. -/
def send_char (st : HAL_StatusTypeDef) (c : Char) : Unit × List HalTransmitCall :=
  ((), (HAL_UART_Transmit st huart2 [c] 1 HAL_MAX_DELAY).2)

/-! ### Loop lemmas for `bar` -/

/-- The cursor ends one step past the offset of the last condition
evaluation: its final offset is the starting offset plus `count + 1`. -/
theorem barLoop_cursor (s : List Char) (k : Int) (p : Nat) :
    (barLoop s k p).2.1 = p + (barLoop s k p).1 + 1 := by
  induction s generalizing k p with
  | nil => simp [barLoop]
  | cons c rest ih =>
    by_cases h : c ≠ nullChar ∧ 0 < k
    · simp only [barLoop, if_pos h]
      have := ih (k - 1) (p + 1)
      omega
    · simp [barLoop, if_neg h]

/-- With no interior terminator, the counter ends at the smaller of the
string length and the (clamped) bound. -/
theorem barLoop_count (s : List Char) (k : Int) (p : Nat) (hs : noNull s) :
    (barLoop s k p).1 = min s.length k.toNat := by
  induction s generalizing k p with
  | nil => simp [barLoop]
  | cons c rest ih =>
    have hc : c ≠ nullChar := hs c (List.mem_cons_self c rest)
    have hrest : noNull rest := fun d hd => hs d (List.mem_cons_of_mem c hd)
    by_cases hk : 0 < k
    · have hpos : c ≠ nullChar ∧ 0 < k := ⟨hc, hk⟩
      simp only [barLoop, if_pos hpos]
      have := ih (k - 1) (p + 1) hrest
      simp only [List.length_cons]
      omega
    · have hneg : ¬(c ≠ nullChar ∧ 0 < k) := fun hh => hk hh.2
      simp only [barLoop, if_neg hneg]
      simp only [List.length_cons]
      omega

/-- The dereferenced offsets are exactly the `count + 1` consecutive offsets
starting at the initial cursor position. -/
theorem barLoop_reads (s : List Char) (k : Int) (p : Nat) :
    (barLoop s k p).2.2 = List.range' p ((barLoop s k p).1 + 1) := by
  induction s generalizing k p with
  | nil => simp [barLoop]
  | cons c rest ih =>
    by_cases h : c ≠ nullChar ∧ 0 < k
    · simp only [barLoop, if_pos h]
      rw [List.range'_succ]
      simp [ih (k - 1) (p + 1)]
    · simp [barLoop, if_neg h]

/-- The counter never exceeds the number of listed bytes, interior
terminators or not. -/
theorem barLoop_count_le (s : List Char) (k : Int) (p : Nat) :
    (barLoop s k p).1 ≤ s.length := by
  induction s generalizing k p with
  | nil => simp [barLoop]
  | cons c rest ih =>
    by_cases h : c ≠ nullChar ∧ 0 < k
    · simp only [barLoop, if_pos h, List.length_cons]
      have := ih (k - 1) (p + 1)
      omega
    · simp [barLoop, if_neg h]

/-- The counter never exceeds the clamped bound. -/
theorem barLoop_count_le_bound (s : List Char) (k : Int) (p : Nat) :
    (barLoop s k p).1 ≤ k.toNat := by
  induction s generalizing k p with
  | nil => simp [barLoop]
  | cons c rest ih =>
    by_cases h : c ≠ nullChar ∧ 0 < k
    · simp only [barLoop, if_pos h]
      have := ih (k - 1) (p + 1)
      omega
    · simp [barLoop, if_neg h]

/-- Whatever the inputs, `bar` prints the single line
`"Matching count ? No"`: the cursor ends at a strictly positive offset, so
the pointer `base + cursor` is never null. -/
theorem bar_output_no (base : Nat) (s : List Char) (len : Int) :
    (bar base s len).output = ["Matching count ? No"] := by
  have hc := barLoop_cursor s len 0
  show ["Matching count ? " ++ barMessage base (barLoop s len 0).2.1] = _
  rw [hc]
  unfold barMessage
  rw [if_pos (by omega : base + (0 + (barLoop s len 0).1 + 1) ≠ 0)]
  rfl

/-- A byte read at an offset below `s.length` is a listed byte, hence not
the terminator when the string has no interior terminator: reading the
terminator pins the offset at or past `s.length`. -/
theorem charAt_null_le (s : List Char) (i : Nat) (hs : noNull s)
    (h : charAt s i = nullChar) : s.length ≤ i := by
  by_contra hlt
  push_neg at hlt
  have heq : charAt s i = s[i] := List.getD_eq_getElem s nullChar hlt
  exact hs s[i] (List.getElem_mem hlt) (heq ▸ h)

/-! ### Helper lemmas about the printed lines -/

/-- The diagnostic line of `foo` is 14 characters long, so no
`"Matching count ? ..."` line (at least 17 characters) can equal it. -/
theorem matching_line_ne_diag (m : String) :
    "Matching count ? " ++ m ≠ "X less than 10" := by
  intro h
  have hlen := congrArg String.length h
  rw [String.length_append] at hlen
  have h17 : ("Matching count ? " : String).length = 17 := rfl
  have h14 : ("X less than 10" : String).length = 14 := rfl
  omega

/-- The formatted line of `foo` ends in the character `s` (of `" chars"`),
while the diagnostic line ends in `0`, so the two are never equal. -/
theorem fooLine_ne_diag (s : List Char) (len : Int) :
    fooLine s len ≠ "X less than 10" := by
  intro h
  have hd := congrArg String.data h
  simp only [fooLine, String.data_append] at hd
  have hlast := congrArg List.getLast? hd
  simp only [List.getLast?_append] at hlast
  have hchars : (" chars" : String).data.getLast? = some 's' := rfl
  have hdiag : ("X less than 10" : String).data.getLast? = some '0' := rfl
  rw [hchars, hdiag] at hlast
  simp at hlast

/-! ### Claim theorems -/

/-- C1 counterexample: with `str = "A"` the bound `len = -1` satisfies
`len <= length(str)`, yet `bar` increments its counter `0` times, not
`min(len, length(str)) = -1` times. -/
theorem bar_negative_bound_count :
    (-1 : Int) ≤ (('A' :: []).length : Int) ∧
    ((bar 1 ('A' :: []) (-1)).count : Int) ≠ min (-1 : Int) ((('A' :: []).length : Int)) := by
  decide

/-- C1 (amended): for every C string and every bound `0 ≤ len ≤ length(str)`,
`bar` increments its counter exactly `min(len, length(str))` times and prints
`"Matching count ? No"`; it would print `"Yes"` exactly when the post-scan
cursor `base + cursor` is the null pointer, which never happens when `str`
is non-null. -/
theorem bar_bounded_scan (base : Nat) (s : List Char) (len : Int)
    (hs : noNull s) (h0 : 0 ≤ len) (hlen : len ≤ (s.length : Int)) (hb : base ≠ 0) :
    ((bar base s len).count : Int) = min len (s.length : Int) ∧
    (bar base s len).output = ["Matching count ? No"] ∧
    ((bar base s len).output = ["Matching count ? Yes"] ↔ base + (bar base s len).cursor = 0) := by
  have hno := bar_output_no base s len
  refine ⟨?_, hno, ?_, ?_⟩
  · show ((barLoop s len 0).1 : Int) = _
    rw [barLoop_count s len 0 hs]
    have h1 : len.toNat ≤ s.length := by omega
    rw [min_eq_right h1, min_eq_left hlen, Int.toNat_of_nonneg h0]
  · intro h
    rw [hno] at h
    exact absurd h (by decide)
  · intro h
    exact ((by omega : base ≠ 0 → ¬(base + (bar base s len).cursor = 0)) hb h).elim

/-- C2 counterexample: with `str = "Hello"` and `len = 2` the scan
dereferences offset `2`, which is neither below the bound `len` nor the
terminator of the string. -/
theorem bar_reads_past_bound :
    2 ∈ (bar 1 ("Hello".toList) 2).reads ∧
    ¬ ((2 : Int) < 2 ∨ charAt ("Hello".toList) 2 = nullChar) := by
  decide

/-- C2 (amended): every offset `bar` dereferences lies within the
null-terminated string (it is at most `length(str)`, the terminator's
offset) and is at most `max(len, 0)`: the scan never reads past the
terminating sentinel, but it does dereference the byte at offset `len`
itself — one past the caller's bound — whenever `0 ≤ len < length(str)`,
and it dereferences offset `0` even when `len ≤ 0`. -/
theorem bar_reads_bounded (base : Nat) (s : List Char) (len : Int)
    (hs : noNull s) :
    ∀ i ∈ (bar base s len).reads, i ≤ s.length ∧ (i : Int) ≤ max len 0 := by
  intro i hi
  have hr : (bar base s len).reads = List.range' 0 ((barLoop s len 0).1 + 1) :=
    barLoop_reads s len 0
  rw [hr, List.mem_range'] at hi
  obtain ⟨j, hj, rfl⟩ := hi
  have hcount := barLoop_count s len 0 hs
  have hc1 : (barLoop s len 0).1 ≤ s.length := by rw [hcount]; exact Nat.min_le_left _ _
  have hc2 : (barLoop s len 0).1 ≤ len.toNat := by rw [hcount]; exact Nat.min_le_right _ _
  have h3 : ((len.toNat : Nat) : Int) = max len 0 := Int.toNat_eq_max len
  constructor
  · omega
  · omega

/-- C3: for every `x < 10`, `foo` prints exactly the diagnostic line
`"X less than 10"`, returns `-1`, and never invokes `bar` (so neither a
`"Matching count"` line nor a `"has ... chars"` line is printed). -/
theorem foo_below_threshold (x : Int) (base : Nat) (s : List Char) (len : Int)
    (hx : x < 10) :
    foo x base s len = ⟨["X less than 10"], -1, false⟩ := by
  simp [foo, hx]

/-- C4: for every `x ≥ 10`, `foo` does not print the `"X less than 10"`
diagnostic and returns the byte count of the formatted print
`"<str> has <len> chars"` plus newline — a positive integer equal to the
printed line's length. -/
theorem foo_at_or_above_threshold (x : Int) (base : Nat) (s : List Char)
    (len : Int) (hx : 10 ≤ x) :
    (foo x base s len).ret = ((fooPrinted s len).length : Nat) ∧
    0 < (foo x base s len).ret ∧
    "X less than 10" ∉ (foo x base s len).output := by
  have hnlt : ¬ x < 10 := by omega
  have hfoo : foo x base s len =
      { output := (bar base s len).output ++ [fooLine s len]
        ret := ((fooPrinted s len).length : Nat)
        barCalled := true } := by
    simp only [foo, if_neg hnlt]
  refine ⟨by rw [hfoo], ?_, ?_⟩
  · rw [hfoo]
    have hlen : 0 < (fooPrinted s len).length := by
      simp only [fooPrinted, String.length_append]
      have h7 : (" chars\n" : String).length = 7 := rfl
      omega
    show (0 : Int) < ((fooPrinted s len).length : Nat)
    exact_mod_cast hlen
  · rw [hfoo, bar_output_no]
    intro hmem
    rcases List.mem_append.1 hmem with hmem | hmem
    · rw [List.mem_singleton] at hmem
      exact matching_line_ne_diag "No" hmem.symm
    · rw [List.mem_singleton] at hmem
      exact fooLine_ne_diag s len hmem.symm

/-- C5 counterexample: the program does not print the `"Hello has 5 chars"`
line first; `bar`'s `"Matching count ? No"` line comes before it. -/
theorem mainRun_claimed_order_false :
    mainRun 1 ≠ ["Hello has 5 chars", "Matching count ? No", "Foo return : 18"] := by
  decide

/-- With the literals of `main`, the run reduces to `bar`'s output followed
by the formatted line and the return-value line. -/
theorem mainRun_eq (base : Nat) :
    mainRun base =
      (bar base ("Hello".toList) 5).output ++
        ["Hello has 5 chars", "Foo return : 18"] := by
  have hnlt : ¬ (10 : Int) < 10 := by norm_num
  simp only [mainRun, foo, if_neg hnlt]
  rw [show ((strlen ("Hello".toList) : Nat) : Int) = 5 from rfl]
  rw [List.append_assoc]
  exact congrArg (fun t => (bar base ("Hello".toList) 5).output ++ t) (by decide)

/-- C5 (amended): with `x = 10`, `str = "Hello"`, `len = 5`, the program
prints exactly `"Matching count ? No"`, then `"Hello has 5 chars"`, then
`"Foo return : 18"`, where 18 is the number of characters of
`"Hello has 5 chars\n"`. -/
theorem mainRun_output (base : Nat) :
    mainRun base = ["Matching count ? No", "Hello has 5 chars", "Foo return : 18"] ∧
    (fooPrinted ("Hello".toList) 5).length = 18 := by
  refine ⟨?_, by decide⟩
  rw [mainRun_eq, bar_output_no]
  rfl

/-- C6: `send_char c` makes exactly one HAL transmit call — carrying that
same character, a length of exactly one byte, and the maximum (effectively
unbounded) delay on `huart2` — and discards the reported status: its result
is the same whatever status the transmit reports. -/
theorem send_char_single_transmit (st st' : HAL_StatusTypeDef) (c : Char) :
    (send_char st c).2 =
      [{ handle := huart2, data := [c], size := 1, timeout := HAL_MAX_DELAY }] ∧
    send_char st c = send_char st' c :=
  ⟨rfl, rfl⟩

/-- C7: in `foo`'s non-error path the call to `bar` happens before the
formatted line is printed: the output trace is exactly `bar`'s
`"Matching count ? No"` line followed by the `"<str> has <len> chars"`
line, so the former always precedes the latter. -/
theorem foo_prints_bar_line_first (x : Int) (base : Nat) (s : List Char)
    (len : Int) (hx : 10 ≤ x) :
    (foo x base s len).output = ["Matching count ? No", fooLine s len] ∧
    (foo x base s len).barCalled = true := by
  have hnlt : ¬ x < 10 := by omega
  have hfoo : foo x base s len =
      { output := (bar base s len).output ++ [fooLine s len]
        ret := ((fooPrinted s len).length : Nat)
        barCalled := true } := by
    simp only [foo, if_neg hnlt]
  rw [hfoo, bar_output_no]
  exact ⟨rfl, rfl⟩

/-- C8: after the scan loop the cursor sits one past the last offset
examined: its offset equals the number of dereferences performed (which is
`count + 1`), and when the byte that stopped the scan was the terminator
the cursor sits at or after the terminator's offset. -/
theorem bar_cursor_past_scan (base : Nat) (s : List Char) (len : Int)
    (hs : noNull s) :
    (bar base s len).cursor = (bar base s len).reads.length ∧
    (bar base s len).cursor = (bar base s len).count + 1 ∧
    (charAt s (bar base s len).count = nullChar →
      s.length ≤ (bar base s len).cursor) := by
  have hcur := barLoop_cursor s len 0
  have hreads := barLoop_reads s len 0
  refine ⟨?_, ?_, ?_⟩
  · show (barLoop s len 0).2.1 = (barLoop s len 0).2.2.length
    rw [hreads, List.length_range']
    omega
  · show (barLoop s len 0).2.1 = (barLoop s len 0).1 + 1
    omega
  · intro hterm
    have hge := charAt_null_le s _ hs hterm
    have hbc : (bar base s len).count = (barLoop s len 0).1 := rfl
    show s.length ≤ (barLoop s len 0).2.1
    omega

/-- C9: for every string — the empty string included — and every bound —
non-positive bounds included — `bar` prints exactly one
`"Matching count ? ..."` line, and whenever `str` is non-null its text is
`"Matching count ? No"`: the `"Yes"` branch is unreachable. -/
theorem bar_always_no (base : Nat) (s : List Char) (len : Int)
    (_hb : base ≠ 0) :
    (bar base s len).output = ["Matching count ? No"] :=
  bar_output_no base s len

/-- C10: when the caller-supplied bound is at least the string's length the
counter ends at exactly `length(str)`, and for every bound whatsoever the
counter never exceeds `length(str)`. -/
theorem bar_count_saturates (base : Nat) (s : List Char) (len : Int)
    (hs : noNull s) (h : (s.length : Int) ≤ len) :
    (bar base s len).count = s.length ∧
    ∀ len' : Int, (bar base s len').count ≤ s.length := by
  constructor
  · show (barLoop s len 0).1 = s.length
    rw [barLoop_count s len 0 hs]
    have h1 : s.length ≤ len.toNat := by omega
    exact min_eq_left h1
  · intro len'
    exact barLoop_count_le s len' 0

/-! ### Witnesses -/

/-- C1 witness: the amended bounded-scan property holds at `base = 1`,
`str = "Hi"`, `len = 1`. -/
theorem bar_bounded_scan_witness :
    noNull ("Hi".toList) ∧ (0 : Int) ≤ 1 ∧
    (1 : Int) ≤ (("Hi".toList).length : Int) ∧ (1 : Nat) ≠ 0 ∧
    (((bar 1 ("Hi".toList) 1).count : Int) = min (1 : Int) ((("Hi".toList).length : Int)) ∧
     (bar 1 ("Hi".toList) 1).output = ["Matching count ? No"] ∧
     ((bar 1 ("Hi".toList) 1).output = ["Matching count ? Yes"] ↔
       1 + (bar 1 ("Hi".toList) 1).cursor = 0)) :=
  ⟨by decide, by decide, by decide, by decide,
   bar_bounded_scan 1 ("Hi".toList) 1 (by decide) (by decide) (by decide) (by decide)⟩

/-- C2 witness: the amended read-bound property holds at `base = 1`,
`str = "Hi"`, `len = 5`, for the dereferenced offset `2`. -/
theorem bar_reads_bounded_witness :
    noNull ("Hi".toList) ∧ 2 ∈ (bar 1 ("Hi".toList) 5).reads ∧
    (2 ≤ ("Hi".toList).length ∧ ((2 : Nat) : Int) ≤ max 5 0) :=
  ⟨by decide, by decide,
   bar_reads_bounded 1 ("Hi".toList) 5 (by decide) 2 (by decide)⟩

/-- C3 witness: the below-threshold property holds at `x = 5`,
`str = "Hello"`, `len = 5`. -/
theorem foo_below_threshold_witness :
    ((5 : Int) < 10) ∧ foo 5 1 ("Hello".toList) 5 = ⟨["X less than 10"], -1, false⟩ :=
  ⟨by decide, foo_below_threshold 5 1 ("Hello".toList) 5 (by decide)⟩

/-- C4 witness: the at-or-above-threshold property holds at `x = 10`,
`str = "Hello"`, `len = 5`. -/
theorem foo_at_or_above_threshold_witness :
    ((10 : Int) ≤ 10) ∧
    ((foo 10 1 ("Hello".toList) 5).ret =
       (((fooPrinted ("Hello".toList) 5).length : Nat) : Int) ∧
     0 < (foo 10 1 ("Hello".toList) 5).ret ∧
     "X less than 10" ∉ (foo 10 1 ("Hello".toList) 5).output) :=
  ⟨by decide, foo_at_or_above_threshold 10 1 ("Hello".toList) 5 (by decide)⟩

/-- C7 witness: the ordering property holds at `x = 10`, `str = "Hi"`,
`len = 2`. -/
theorem foo_prints_bar_line_first_witness :
    ((10 : Int) ≤ 10) ∧
    ((foo 10 1 ("Hi".toList) 2).output = ["Matching count ? No", fooLine ("Hi".toList) 2] ∧
     (foo 10 1 ("Hi".toList) 2).barCalled = true) :=
  ⟨by decide, foo_prints_bar_line_first 10 1 ("Hi".toList) 2 (by decide)⟩

/-- C8 witness: the cursor property holds at `base = 1`, `str = "Hi"`,
`len = 5`. -/
theorem bar_cursor_past_scan_witness :
    noNull ("Hi".toList) ∧
    ((bar 1 ("Hi".toList) 5).cursor = (bar 1 ("Hi".toList) 5).reads.length ∧
     (bar 1 ("Hi".toList) 5).cursor = (bar 1 ("Hi".toList) 5).count + 1 ∧
     (charAt ("Hi".toList) (bar 1 ("Hi".toList) 5).count = nullChar →
       ("Hi".toList).length ≤ (bar 1 ("Hi".toList) 5).cursor)) :=
  ⟨by decide, bar_cursor_past_scan 1 ("Hi".toList) 5 (by decide)⟩

/-- C9 witness: the always-"No" property holds at `base = 1` for the empty
string with the non-positive bound `-3`. -/
theorem bar_always_no_witness :
    (1 : Nat) ≠ 0 ∧ (bar 1 [] (-3)).output = ["Matching count ? No"] :=
  ⟨by decide, bar_always_no 1 [] (-3) (by decide)⟩

/-- C10 witness: the saturation property holds at `base = 1`, `str = "Hi"`,
`len = 7`, with the unbounded-part instance taken at `len = 100`. -/
theorem bar_count_saturates_witness :
    noNull ("Hi".toList) ∧ ((("Hi".toList).length : Int) ≤ 7) ∧
    (bar 1 ("Hi".toList) 7).count = ("Hi".toList).length ∧
    (bar 1 ("Hi".toList) 100).count ≤ ("Hi".toList).length :=
  ⟨by decide, by decide,
   (bar_count_saturates 1 ("Hi".toList) 7 (by decide) (by decide)).1,
   (bar_count_saturates 1 ("Hi".toList) 7 (by decide) (by decide)).2 100⟩
